import Mathlib

/-
Verification of the Intelligent Scheduling & Insights Engine
(modules/intelligent_scheduler.py and modules/analytics.py).

The SQL layer is modelled by passing query results as explicit inputs:
each Python function becomes a pure Lean function of the rows it fetches.
Python dictionaries returned to callers become structures; a dictionary
access with a key that the producer never writes is modelled as an
`Option`-valued lookup returning `none` (a `KeyError` in Python), and a
`try/except` block that converts any exception into a default return
value is modelled with `Option.getD`.

Python `round(x, n)` (banker's rounding, exact on the decimal values
arising here) is modelled on `ℚ` by `py_round`.
-/

/-- Round-half-to-even on an exact rational, the semantics of Python
`round` applied to an exactly representable value. -/
def round_half_even (x : ℚ) : ℤ :=
  if x - ⌊x⌋ < 1/2 then ⌊x⌋
  else if 1/2 < x - ⌊x⌋ then ⌊x⌋ + 1
  else if ⌊x⌋ % 2 = 0 then ⌊x⌋ else ⌊x⌋ + 1

/-- Python `round(x, ndigits)` on an exact rational. -/
def py_round (ndigits : Nat) (x : ℚ) : ℚ :=
  ((round_half_even (x * 10 ^ ndigits) : ℤ) : ℚ) / 10 ^ ndigits

/-- Python `str.lower()`, written by structural recursion over the
character list (extensionally `String.toLower`, which is opaque to
kernel reduction). -/
def py_lower (s : String) : String := ⟨s.data.map Char.toLower⟩

/-
===========================  analytics.py  ===========================
-/

/-- One row of the similar-tasks query of
`Analytics.get_smart_scheduling_suggestion` (analytics.py:181-207):
`AVG(tl.duration_minutes)` and `COUNT(*)` for one grouped task. -/
structure SimilarTask where
  avg_duration : ℚ
  completion_count : Nat
  deriving DecidableEq

/-- One entry of the `recommended_breaks` list built at
analytics.py:236-244. -/
structure BreakRec where
  time : ℚ
  duration : ℚ
  break_type : String
  deriving DecidableEq

/-- The dictionary returned by `get_smart_scheduling_suggestion`
(analytics.py:173-178).  The echoed `similar_tasks` list is omitted as it
is a verbatim copy of the input rows. -/
structure SchedulingSuggestion where
  estimated_duration : ℚ
  confidence_level : String
  recommended_breaks : List BreakRec
  deriving DecidableEq

/-- `Analytics.calculate_average_time` (analytics.py:119-158) as a
function of the `AVG(...)` query result: `result['avg_duration'] if
result['avg_duration'] else 0`, so SQL `NULL` (`none`) and the falsy
value `0` both yield `0`. -/
def calculate_average_time (avg_duration : Option ℚ) : ℚ :=
  match avg_duration with
  | some d => if d = 0 then 0 else d
  | none => 0

/-- `total_weight = sum(task['completion_count'] for task in similar_tasks)`
(analytics.py:211). -/
def total_weight (ts : List SimilarTask) : Nat :=
  (ts.map (fun t => t.completion_count)).sum

/-- `sum(task['avg_duration'] * task['completion_count'] for task in
similar_tasks)` (analytics.py:212-215). -/
def weighted_sum (ts : List SimilarTask) : ℚ :=
  (ts.map (fun t => t.avg_duration * (t.completion_count : ℚ))).sum

/-- `weighted_avg = (...) / total_weight if total_weight > 0 else 0`
(analytics.py:212-215). -/
def weighted_avg (ts : List SimilarTask) : ℚ :=
  if 0 < total_weight ts then weighted_sum ts / (total_weight ts : ℚ) else 0

/-- The break recommendations appended at analytics.py:235-244, as a
function of the already-computed `estimated_duration` (note Python `//`
is floor division). -/
def recommended_breaks_for (estimated_duration : ℚ) : List BreakRec :=
  if 120 < estimated_duration then
    [⟨(⌊estimated_duration / 2⌋ : ℚ), 15, "mid-session break"⟩,
     ⟨estimated_duration, 30, "completion break"⟩]
  else if 60 < estimated_duration then
    [⟨estimated_duration, 15, "completion break"⟩]
  else []

/-- `Analytics.get_smart_scheduling_suggestion` (analytics.py:160-246) as
a function of the fetched similar-task rows and of the `avg_duration`
result used by the `calculate_average_time` fallback (with or without the
category filter, analytics.py:222-227). -/
def get_smart_scheduling_suggestion (similar_tasks : List SimilarTask)
    (general_avg_duration : Option ℚ) : SchedulingSuggestion :=
  let base : SchedulingSuggestion :=
    if similar_tasks = [] then
      { estimated_duration := py_round 2 (calculate_average_time general_avg_duration),
        confidence_level := "low",
        recommended_breaks := [] }
    else
      { estimated_duration := py_round 2 (weighted_avg similar_tasks),
        confidence_level := if 3 ≤ similar_tasks.length then "high" else "medium",
        recommended_breaks := [] }
  { base with recommended_breaks := recommended_breaks_for base.estimated_duration }

/-- The suggestion returned by `Analytics.suggest_break`
(analytics.py:306-325): severity tag and recommended minutes.  The
free-text message is omitted. -/
structure BreakSuggestion where
  break_type : String
  duration : Nat
  deriving DecidableEq

/-- `Analytics.suggest_break` (analytics.py:280-329) as a function of the
`SUM(tl.duration_minutes)` result over the trailing 4-hour window
(`none` = SQL NULL; `result['recent_time'] if result['recent_time'] else 0`
coincides with `getD 0` since the falsy value 0 maps to 0). -/
def suggest_break (recent_sum : Option Nat) : Option BreakSuggestion :=
  let recent_time := recent_sum.getD 0
  if 240 < recent_time then some ⟨"extended_break", 30⟩
  else if 120 < recent_time then some ⟨"short_break", 15⟩
  else if 60 < recent_time then some ⟨"micro_break", 5⟩
  else none

/-- One task row of a user, carrying its status name (the join used by
the completion-rate queries, analytics.py:385-392 and 571-578). -/
structure TaskRow where
  status_name : String
  deriving DecidableEq

/-- `COUNT(CASE WHEN ts.status_name = 'completed' THEN 1 END)` over the
user's tasks. -/
def completed_count (tasks : List TaskRow) : Nat :=
  (tasks.filter (fun t => decide (t.status_name = "completed"))).length

/-- The `completion_rate` field computed by
`Analytics.get_productivity_insights` (analytics.py:384-398): it stays at
its initial value 0 unless `total > 0`, in which case it is
`round(completed / total * 100, 1)`. -/
def insights_completion_rate (tasks : List TaskRow) : ℚ :=
  if 0 < tasks.length then
    py_round 1 ((completed_count tasks : ℚ) / (tasks.length : ℚ) * 100)
  else 0

/-- `Analytics.get_task_completion_rate` (analytics.py:562-590):
`min(100.0, completed / total * 100)` when `total > 0`, else 0. -/
def get_task_completion_rate (tasks : List TaskRow) : ℚ :=
  if 0 < tasks.length then
    min 100 ((completed_count tasks : ℚ) / (tasks.length : ℚ) * 100)
  else 0

/-
====================  intelligent_scheduler.py  ====================
-/

/-- One element of the `tasks` argument of
`IntelligentScheduler.create_smart_schedule` (a task dictionary with
`name` required and the other keys read via `.get`). -/
structure TaskInput where
  name : String
  description : Option String
  category_id : Option Nat
  category_name : Option String
  project_name : Option String
  deriving DecidableEq

/-- The dictionary returned by
`IntelligentScheduler.predict_task_duration` (intelligent_scheduler.py
lines 85-89 and 94-98): keys `duration` (hours), `confidence`, `method`. -/
structure Prediction where
  duration : ℚ
  confidence : ℚ
  method : String
  deriving DecidableEq

/-- Dictionary access on a prediction result: the numeric keys present
are exactly `duration` and `confidence`; any other key is a `KeyError`,
modelled as `none`.  (`method` holds a string and is accessed nowhere.) -/
def Prediction.lookup (p : Prediction) (key : String) : Option ℚ :=
  if key = "duration" then some p.duration
  else if key = "confidence" then some p.confidence
  else none

/-- The `default_durations` table of `predict_task_duration`
(intelligent_scheduler.py:69-77), accessed with
`.get(category_name.lower(), 60)`. -/
def default_durations (category : String) : Nat :=
  if category = "coding" then 120
  else if category = "design" then 90
  else if category = "planning" then 60
  else if category = "testing" then 45
  else if category = "documentation" then 60
  else if category = "meeting" then 30
  else if category = "other" then 60
  else 60

/-- `IntelligentScheduler.predict_task_duration`
(intelligent_scheduler.py:41-98) as a function of its query results:
`lookup_category` is the `category_name` lookup (empty result = `none`,
and a falsy `category_id` skips the query), `category_avg` is the
`AVG(tl.duration_minutes)` result for the category (`none` = NULL, and
the falsy value 0 also falls through to the defaults).  `estimator_raises`
models a database exception inside the body: the `except` branch returns
the fixed fallback dictionary `{duration: 1.0, confidence: 50.0,
method: 'Default Estimate'}` (lines 91-98). -/
def predict_task_duration (estimator_raises : Bool) (category_id : Option Nat)
    (lookup_category : Nat → Option String) (category_avg : Option ℚ) : Prediction :=
  if estimator_raises then
    { duration := 1, confidence := 50, method := "Default Estimate" }
  else
    let category_name : String :=
      match category_id with
      | some cid => if cid = 0 then "other" else (lookup_category cid).getD "other"
      | none => "other"
    let duration : ℚ :=
      match category_avg with
      | some d => if d = 0 then (default_durations (py_lower category_name) : ℚ) else d
      | none => (default_durations (py_lower category_name) : ℚ)
    { duration := py_round 1 (duration / 60), confidence := 70, method := "Historical Average" }

/-- The dictionary appended to `scheduled_tasks` at
intelligent_scheduler.py:138-145. -/
structure ScheduledTaskFull where
  task_name : String
  start_time : ℚ
  duration : ℚ
  confidence : ℚ
  category : String
  project : String
  deriving DecidableEq

/-- Timestamps are rational minutes since an epoch at local midnight;
`t.hour` of the corresponding datetime. -/
def hour_of_time (t : ℚ) : ℤ := ⌊t / 60⌋ % 24

/-- `t.replace(hour=0, minute=0, second=0, microsecond=0)`: midnight of
the day containing `t`. -/
def day_start_time (t : ℚ) : ℚ := 1440 * (⌊t / 1440⌋ : ℚ)

/-- `IntelligentScheduler._calculate_break_duration`
(intelligent_scheduler.py:182-191). -/
def calculate_break_duration (task_duration : ℚ) : ℚ :=
  if task_duration ≤ 30 then 5
  else if task_duration ≤ 60 then 10
  else if task_duration ≤ 120 then 15
  else 20

/-- `IntelligentScheduler._find_optimal_start_time`
(intelligent_scheduler.py:156-180): if the current hour is not
productive, jump to the first listed later productive hour today at
minute 0, else to the first productive hour tomorrow (`productive_hours[0]`;
`headD 0` stands for the Python index access, which presupposes a
non-empty list); then bump past each conflicting existing task plus a
15-minute buffer, scanning in list order. -/
def find_optimal_start_time (current_time : ℚ) (productive_hours : List ℤ)
    (existing_tasks : List ScheduledTaskFull) : ℚ :=
  let s0 : ℚ :=
    if hour_of_time current_time ∈ productive_hours then current_time
    else
      match productive_hours.find? (fun h => decide (hour_of_time current_time < h)) with
      | some h => day_start_time current_time + (h : ℚ) * 60
      | none => day_start_time current_time + 1440 + ((productive_hours.headD 0 : ℤ) : ℚ) * 60
  existing_tasks.foldl
    (fun s t => if s < t.start_time + t.duration then t.start_time + t.duration + 15 else s) s0

/-- The database-backed inputs of one `create_smart_schedule` call.
`most_productive_hours` is the value `insights.get('most_productive_hours', ...)`
would find: `get_productivity_insights` never writes that key, so in the
shipped code it is always `none` and the default `[9,10,11,14,15,16]`
applies; it is kept as a parameter so that hypothetical insight values can
be examined. -/
structure SchedulerEnv where
  lookup_category : Nat → Option String
  category_avg : Option Nat → Option ℚ
  estimator_raises : Option Nat → Bool
  most_productive_hours : Option (List ℤ)

/-- The `for i, task in enumerate(tasks)` loop of
`IntelligentScheduler.create_smart_schedule`
(intelligent_scheduler.py:118-148).  Each iteration reads
`prediction['predicted_duration']`; `predict_task_duration` returns no
such key, so the access raises `KeyError`, modelled by `none`, which the
batch-level `except` turns into `[]` (see `create_smart_schedule`). -/
def create_smart_schedule_go (env : SchedulerEnv) (productive_hours : List ℤ) :
    List TaskInput → ℚ → List ScheduledTaskFull → Nat → Option (List ScheduledTaskFull)
  | [], _, scheduled_tasks, _ => some scheduled_tasks
  | task :: rest, current_time, scheduled_tasks, i =>
    let prediction := predict_task_duration (env.estimator_raises task.category_id)
      task.category_id env.lookup_category (env.category_avg task.category_id)
    match prediction.lookup "predicted_duration" with
    | none => none
    | some duration =>
      let s := find_optimal_start_time current_time productive_hours scheduled_tasks
      let start_time := if 0 < i then s + calculate_break_duration duration else s
      let st : ScheduledTaskFull :=
        { task_name := task.name, start_time := start_time, duration := duration,
          confidence := prediction.confidence,
          category := task.category_name.getD "Unknown",
          project := task.project_name.getD "No Project" }
      create_smart_schedule_go env productive_hours rest (start_time + duration)
        (scheduled_tasks ++ [st]) (i + 1)

/-- `IntelligentScheduler.create_smart_schedule`
(intelligent_scheduler.py:100-154): the whole body sits in a `try` whose
`except` returns `[]`, and the loop raises `KeyError` on its first
iteration, so any exception yields `[]` via `getD`. -/
def create_smart_schedule (env : SchedulerEnv) (now : ℚ) (tasks : List TaskInput) :
    List ScheduledTaskFull :=
  let productive_hours := env.most_productive_hours.getD [9, 10, 11, 14, 15, 16]
  (create_smart_schedule_go env productive_hours tasks now [] 0).getD []

/-
The placement loop in isolation.  The loop body of
`create_smart_schedule` (intelligent_scheduler.py:128-148) never executes
in the shipped code because of the `predicted_duration` KeyError; the
definitions below are the same loop with the per-task predicted duration
supplied directly (whole minutes, minute-granularity timestamps), which is
what the specification describes.
-/

/-- A placement produced by the loop: the fields that determine the
timeline (display-only fields dropped). -/
structure Placement where
  task_name : String
  start_time : Nat
  duration : Nat
  deriving DecidableEq

/-- `t.hour` at minute granularity. -/
def hourOfDay (t : Nat) : Nat := t / 60 % 24

/-- Midnight of the day containing `t`. -/
def dayStart (t : Nat) : Nat := t / 1440 * 1440

/-- `_calculate_break_duration` on whole minutes. -/
def calculateBreak (d : Nat) : Nat :=
  if d ≤ 30 then 5
  else if d ≤ 60 then 10
  else if d ≤ 120 then 15
  else 20

/-- `_find_optimal_start_time` on minute-granularity timestamps (same
structure as `find_optimal_start_time` above). -/
def findOptimalStart (current_time : Nat) (productive_hours : List Nat)
    (existing : List Placement) : Nat :=
  let s0 :=
    if hourOfDay current_time ∈ productive_hours then current_time
    else
      match productive_hours.find? (fun h => decide (hourOfDay current_time < h)) with
      | some h => dayStart current_time + h * 60
      | none => dayStart current_time + 1440 + productive_hours.headD 0 * 60
  existing.foldl
    (fun s t => if s < t.start_time + t.duration then t.start_time + t.duration + 15 else s) s0

/-- The start time the loop assigns to one task: the conflict-free slot,
plus the break `_calculate_break_duration(duration)` of the task's own
predicted duration when it is not the first task (`if i > 0`,
intelligent_scheduler.py:133-136). -/
def stepStart (ph : List Nat) (ct : Nat) (scheduled : List Placement)
    (is_first : Bool) (d : Nat) : Nat :=
  if is_first then findOptimalStart ct ph scheduled
  else findOptimalStart ct ph scheduled + calculateBreak d

/-- The placement loop of `create_smart_schedule`
(intelligent_scheduler.py:118-148) with predictions supplied: each task
is placed at `stepStart`, appended to `scheduled`, and the cursor moves
to `start + duration`.  The returned list is exactly the final
`scheduled_tasks` when started with `scheduled = []`. -/
def scheduleGo (ph : List Nat) :
    List (String × Nat) → Nat → List Placement → Bool → List Placement
  | [], _, _, _ => []
  | (n, d) :: rest, current_time, scheduled, is_first =>
    let start := stepStart ph current_time scheduled is_first d
    let st : Placement := ⟨n, start, d⟩
    st :: scheduleGo ph rest (start + d) (scheduled ++ [st]) false

/-- One full run of the placement loop from a reference time. -/
def buildScheduleLoop (ph : List Nat) (tasks : List (String × Nat)) (now : Nat) :
    List Placement :=
  scheduleGo ph tasks now [] true

/-- Adjacent-placement gap relation: the later task starts no earlier
than the earlier task's end plus the break computed from the later
task's own duration. -/
def gapOk (a b : Placement) : Prop :=
  a.start_time + a.duration + calculateBreak b.duration ≤ b.start_time

/-- Strict precedence of placements on the timeline. -/
def placedBefore (a b : Placement) : Prop :=
  a.start_time + a.duration < b.start_time

/-
===========================  environments  ===========================
-/

/-- An environment in which every database call inside
`predict_task_duration` raises, so the estimator returns its fallback. -/
def env_estimator_down : SchedulerEnv :=
  { lookup_category := fun _ => none, category_avg := fun _ => none,
    estimator_raises := fun _ => true, most_productive_hours := none }

/-- An environment with a healthy estimator and no historical data. -/
def env_plain : SchedulerEnv :=
  { lookup_category := fun _ => none, category_avg := fun _ => none,
    estimator_raises := fun _ => false, most_productive_hours := none }

/-- The environment of the claim C3 scenario: insights supplying
productive hours [9,14] and a 60-minute category average. -/
def env_scenario : SchedulerEnv :=
  { lookup_category := fun _ => none, category_avg := fun _ => some 60,
    estimator_raises := fun _ => false, most_productive_hours := some [9, 14] }

def report_task : TaskInput := ⟨"Quarterly report", none, some 1, none, none⟩

def sample_task : TaskInput := ⟨"Prepare slides", none, none, none, none⟩

def scenario_task1 : TaskInput := ⟨"Task1", none, some 1, none, none⟩

def scenario_task2 : TaskInput := ⟨"Task2", none, some 1, none, none⟩

/-- Minimum of the individual `avg_duration` values of a non-empty
similar-task list `t :: ts`. -/
def min_avg (t : SimilarTask) (ts : List SimilarTask) : ℚ :=
  (ts.map (fun x => x.avg_duration)).foldl min t.avg_duration

/-- Maximum of the individual `avg_duration` values of a non-empty
similar-task list `t :: ts`. -/
def max_avg (t : SimilarTask) (ts : List SimilarTask) : ℚ :=
  (ts.map (fun x => x.avg_duration)).foldl max t.avg_duration

/-- A category table containing only id 3 = `testing` (the claim C8
scenario). -/
def testing_lookup : Nat → Option String :=
  fun n => if n = 3 then some "testing" else none

/-
===========================  claims  ===========================
-/

/-- Claim C1 (code bug): when the duration estimator fails for the sole
candidate task, `predict_task_duration` does return the claimed default
one-hour estimate without propagating the failure, but
`create_smart_schedule` still returns no placement at all — the
`predicted_duration` KeyError empties the whole batch — contradicting
the claim that the failed task is placed with a one-hour default and
the rest of the batch survives. -/
theorem claim_C1_estimator_failure_empty_batch :
    (predict_task_duration true (some 1) (fun _ => none) none).duration = 1 ∧
    (predict_task_duration true (some 1) (fun _ => none) none).method = "Default Estimate" ∧
    create_smart_schedule env_estimator_down 480 [report_task] = [] :=
  ⟨rfl, rfl, rfl⟩

/-- Claim C2: for every environment, reference time and non-empty task
list, `create_smart_schedule` returns the empty list: the loop body reads
the key `predicted_duration`, which no prediction dictionary contains
(the estimator returns `duration`), so the first iteration raises
KeyError and the batch-level handler returns `[]`. -/
theorem claim_C2_schedule_always_empty (env : SchedulerEnv) (now : ℚ)
    (tasks : List TaskInput) (h : tasks ≠ []) :
    create_smart_schedule env now tasks = [] ∧
    ∀ p : Prediction, p.lookup "predicted_duration" = none := by
  refine ⟨?_, fun p => rfl⟩
  cases tasks with
  | nil => exact absurd rfl h
  | cons t rest => rfl

/-- Witness for claim C2 at a concrete non-empty input. -/
theorem claim_C2_schedule_always_empty_witness :
    ([sample_task] : List TaskInput) ≠ [] ∧
    create_smart_schedule env_plain 0 [sample_task] = [] :=
  ⟨List.cons_ne_nil _ _,
   (claim_C2_schedule_always_empty env_plain 0 [sample_task] (List.cons_ne_nil _ _)).1⟩

/-- Claim C3 is false on the code: in the stated scenario (productive
hours [9,14], reference time 08:00 = 480 minutes, category average 60
minutes for both tasks) `create_smart_schedule` produces no placements
at all, in particular not the claimed 09:00 and 14:00 placements. -/
theorem claim_C3_scenario_counterexample :
    create_smart_schedule env_scenario 480 [scenario_task1, scenario_task2] = [] ∧
    (create_smart_schedule env_scenario 480 [scenario_task1, scenario_task2]).map
        (fun t => (t.task_name, t.start_time)) ≠
      [("Task1", (540 : ℚ)), ("Task2", (840 : ℚ))] := by
  have h0 : create_smart_schedule env_scenario 480 [scenario_task1, scenario_task2] = [] := rfl
  refine ⟨h0, ?_⟩
  rw [h0]
  simp

/-- Claim C3 (amended): in the stated scenario the returned schedule is
the empty list — the first loop iteration fails reading
`predicted_duration` and the batch handler converts the error into `[]`,
so neither task is placed. -/
theorem claim_C3_scenario_empty_result :
    create_smart_schedule env_scenario 480 [scenario_task1, scenario_task2] = [] := rfl

/-- Claim C10: the break-suggestion ladder of `suggest_break` — more
than 240 logged minutes in the window give an extended 30-minute break,
more than 120 (up to 240) a short 15-minute break, more than 60 (up to
120) a micro 5-minute break, otherwise no suggestion; in particular 250
minutes yield extended/30 and 50 minutes yield none. -/
theorem claim_C10_break_thresholds :
    (∀ m : Nat,
      (240 < m → suggest_break (some m) = some ⟨"extended_break", 30⟩) ∧
      (120 < m → m ≤ 240 → suggest_break (some m) = some ⟨"short_break", 15⟩) ∧
      (60 < m → m ≤ 120 → suggest_break (some m) = some ⟨"micro_break", 5⟩) ∧
      (m ≤ 60 → suggest_break (some m) = none)) ∧
    suggest_break (some 250) = some ⟨"extended_break", 30⟩ ∧
    suggest_break (some 50) = none := by
  refine ⟨?_, rfl, rfl⟩
  intro m
  refine ⟨fun h1 => ?_, fun h1 h2 => ?_, fun h1 h2 => ?_, fun h1 => ?_⟩ <;>
    simp only [suggest_break, Option.getD_some] <;> split_ifs <;> first | rfl | omega

/-- Witness for claim C10 on a concrete sum above the extended
threshold. -/
theorem claim_C10_break_thresholds_witness :
    240 < 300 ∧ suggest_break (some 300) = some ⟨"extended_break", 30⟩ :=
  ⟨by omega, (claim_C10_break_thresholds.1 300).1 (by omega)⟩

/-- Claim C6: the confidence label of the scheduling suggestion is
`high` iff at least 3 similar tasks were found, `medium` iff 1 or 2,
and `low` iff none. -/
theorem claim_C6_confidence_levels (similar_tasks : List SimilarTask)
    (general_avg_duration : Option ℚ) :
    ((get_smart_scheduling_suggestion similar_tasks general_avg_duration).confidence_level = "high"
        ↔ 3 ≤ similar_tasks.length) ∧
    ((get_smart_scheduling_suggestion similar_tasks general_avg_duration).confidence_level = "medium"
        ↔ similar_tasks.length = 1 ∨ similar_tasks.length = 2) ∧
    ((get_smart_scheduling_suggestion similar_tasks general_avg_duration).confidence_level = "low"
        ↔ similar_tasks.length = 0) := by
  have hconf : (get_smart_scheduling_suggestion similar_tasks general_avg_duration).confidence_level
      = if similar_tasks = [] then "low"
        else if 3 ≤ similar_tasks.length then "high" else "medium" := by
    unfold get_smart_scheduling_suggestion
    split_ifs with h1 h2 <;> rfl
  simp only [hconf]
  rcases similar_tasks with _ | ⟨t, ts⟩
  · decide
  · have hne : ¬ ((t :: ts) = []) := by simp
    by_cases h3 : 3 ≤ (t :: ts).length
    · rw [if_neg hne, if_pos h3]
      refine ⟨⟨fun _ => h3, fun _ => rfl⟩,
        ⟨fun hs => absurd hs (by decide), fun hl => ?_⟩,
        ⟨fun hs => absurd hs (by decide), fun hl => ?_⟩⟩
      · rcases hl with h | h <;> omega
      · simp at hl
    · rw [if_neg hne, if_neg h3]
      refine ⟨⟨fun hs => absurd hs (by decide), fun hl => absurd hl h3⟩,
        ⟨fun _ => ?_, fun _ => rfl⟩,
        ⟨fun hs => absurd hs (by decide), fun hl => ?_⟩⟩
      · simp only [List.length_cons] at h3 ⊢
        omega
      · simp at hl

/-
==================  placement-loop lemmas  ==================
-/

/-- The conflict-resolution scan only moves the candidate start forward. -/
theorem le_foldl_conflicts (ex : List Placement) :
    ∀ s : Nat, s ≤ ex.foldl
      (fun s t => if s < t.start_time + t.duration then t.start_time + t.duration + 15 else s) s := by
  induction ex with
  | nil => intro s; simp
  | cons t l ih =>
    intro s
    simp only [List.foldl_cons]
    refine le_trans ?_ (ih _)
    split <;> omega

/-- `_find_optimal_start_time` never moves the cursor backwards. -/
theorem le_findOptimalStart (ct : Nat) (ph : List Nat) (ex : List Placement) :
    ct ≤ findOptimalStart ct ph ex := by
  refine le_trans ?_ (le_foldl_conflicts ex _)
  by_cases hmem : hourOfDay ct ∈ ph
  · rw [if_pos hmem]
  · rw [if_neg hmem]
    cases hfind : ph.find? (fun h => decide (hourOfDay ct < h)) with
    | none =>
      show ct ≤ dayStart ct + 1440 + ph.headD 0 * 60
      simp only [dayStart]
      omega
    | some h =>
      show ct ≤ dayStart ct + h * 60
      have hp' := List.find?_some hfind
      have hp : hourOfDay ct < h := by simpa using hp'
      simp only [dayStart, hourOfDay] at hp ⊢
      omega

/-- Unfolding of one loop iteration. -/
theorem scheduleGo_cons (ph : List Nat) (n : String) (d : Nat) (rest : List (String × Nat))
    (ct : Nat) (S : List Placement) (first : Bool) :
    scheduleGo ph ((n, d) :: rest) ct S first =
      ⟨n, stepStart ph ct S first d, d⟩ ::
        scheduleGo ph rest (stepStart ph ct S first d + d)
          (S ++ [⟨n, stepStart ph ct S first d, d⟩]) false := rfl

/-- Every placement starts no earlier than the cursor it was placed from. -/
theorem le_stepStart (ph : List Nat) (ct : Nat) (S : List Placement) (first : Bool) (d : Nat) :
    ct ≤ stepStart ph ct S first d := by
  unfold stepStart
  split
  · exact le_findOptimalStart ct ph S
  · exact le_trans (le_findOptimalStart ct ph S) (Nat.le_add_right _ _)

/-- Invariant of the tail of the loop (`is_first = false`): the produced
placements form a `gapOk` chain and the first of them starts at least its
own break after the incoming cursor. -/
theorem scheduleGo_chain (ph : List Nat) :
    ∀ (rest : List (String × Nat)) (ct : Nat) (S : List Placement),
      List.Chain' gapOk (scheduleGo ph rest ct S false) ∧
      ∀ b : Placement, (scheduleGo ph rest ct S false).head? = some b →
        ct + calculateBreak b.duration ≤ b.start_time := by
  intro rest
  induction rest with
  | nil =>
    intro ct S
    exact ⟨List.chain'_nil, fun b hb => by simp [scheduleGo] at hb⟩
  | cons td rest ih =>
    obtain ⟨n, d⟩ := td
    intro ct S
    rw [scheduleGo_cons]
    constructor
    · rw [List.chain'_cons']
      refine ⟨?_, (ih _ _).1⟩
      intro b hb
      exact (ih (stepStart ph ct S false d + d)
        (S ++ [⟨n, stepStart ph ct S false d, d⟩])).2 b (Option.mem_def.mp hb)
    · intro b hb
      rw [List.head?_cons, Option.some.injEq] at hb
      subst hb
      show ct + calculateBreak d ≤ stepStart ph ct S false d
      have hs : stepStart ph ct S false d = findOptimalStart ct ph S + calculateBreak d := rfl
      have hge := le_findOptimalStart ct ph S
      omega

/-- The full run (first task placed without a break) is a `gapOk` chain. -/
theorem buildScheduleLoop_chain (ph : List Nat) (tasks : List (String × Nat)) (now : Nat) :
    List.Chain' gapOk (buildScheduleLoop ph tasks now) := by
  cases tasks with
  | nil => exact List.chain'_nil
  | cons td rest =>
    obtain ⟨n, d⟩ := td
    show List.Chain' gapOk (scheduleGo ph ((n, d) :: rest) now [] true)
    rw [scheduleGo_cons, List.chain'_cons']
    refine ⟨?_, (scheduleGo_chain ph rest _ _).1⟩
    intro b hb
    exact (scheduleGo_chain ph rest _ _).2 b (Option.mem_def.mp hb)

/-- Every break of the step table is at least 5 minutes. -/
theorem five_le_calculateBreak (d : Nat) : 5 ≤ calculateBreak d := by
  unfold calculateBreak
  split_ifs <;> omega

/-- Adjacent placements of any loop state: the later one starts exactly
its own break after the conflict-free slot computed from the earlier
one's end. -/
theorem scheduleGo_adjacent (ph : List Nat) :
    ∀ (rest : List (String × Nat)) (ct : Nat) (S : List Placement) (first : Bool)
      (i : Nat) (a b : Placement),
      (scheduleGo ph rest ct S first)[i]? = some a →
      (scheduleGo ph rest ct S first)[i+1]? = some b →
      b.start_time = findOptimalStart (a.start_time + a.duration) ph
          (S ++ (scheduleGo ph rest ct S first).take (i+1)) + calculateBreak b.duration := by
  intro rest
  induction rest with
  | nil =>
    intro ct S first i a b ha _
    simp [scheduleGo] at ha
  | cons td rest ih =>
    obtain ⟨n, d⟩ := td
    intro ct S first i a b ha hb
    rw [scheduleGo_cons] at ha hb ⊢
    cases i with
    | zero =>
      rw [List.getElem?_cons_zero, Option.some.injEq] at ha
      subst ha
      rw [List.getElem?_cons_succ] at hb
      cases rest with
      | nil => simp [scheduleGo] at hb
      | cons td' rest' =>
        obtain ⟨n', d'⟩ := td'
        rw [scheduleGo_cons, List.getElem?_cons_zero, Option.some.injEq] at hb
        subst hb
        simp only [List.take_succ_cons, List.take_zero]
        rfl
    | succ i =>
      rw [List.getElem?_cons_succ] at ha hb
      have h3 := ih (stepStart ph ct S first d + d)
        (S ++ [⟨n, stepStart ph ct S first d, d⟩]) false i a b ha hb
      simpa [List.take_succ_cons] using h3

/-
==================  claims C4 and C5  ==================
-/

/-- Claim C4 as stated is false on the loop: after a 30-minute task, a
90-minute task is placed with the 15-minute break of its OWN duration
bracket, not the 5-minute break the previous task's 30-minute duration
would dictate (start 585 = slot 570 + 15, not 570 + 5). -/
theorem claim_C4_break_prev_duration_counterexample :
    buildScheduleLoop [9, 10, 11, 14, 15, 16] [("A", 30), ("B", 90)] 540 =
      [⟨"A", 540, 30⟩, ⟨"B", 585, 90⟩] ∧
    ¬ ((585 : Nat) = findOptimalStart (540 + 30) [9, 10, 11, 14, 15, 16]
        ((buildScheduleLoop [9, 10, 11, 14, 15, 16] [("A", 30), ("B", 90)] 540).take 1)
        + calculateBreak 30) := by
  constructor
  · decide
  · decide

/-- Claim C4 (amended): in every run of the placement loop, each task
after the first starts exactly `calculateBreak` of its OWN predicted
duration (≤30→5, ≤60→10, ≤120→15, else 20) after the conflict-free slot
computed from its predecessor's end — the step function is applied to
the current task's duration, not the previous one's. -/
theorem claim_C4_break_current_duration (ph : List Nat) (tasks : List (String × Nat))
    (now : Nat) (i : Nat) (a b : Placement)
    (ha : (buildScheduleLoop ph tasks now)[i]? = some a)
    (hb : (buildScheduleLoop ph tasks now)[i+1]? = some b) :
    b.start_time = findOptimalStart (a.start_time + a.duration) ph
        ((buildScheduleLoop ph tasks now).take (i+1)) + calculateBreak b.duration := by
  have h := scheduleGo_adjacent ph tasks now [] true i a b ha hb
  rw [List.nil_append] at h
  exact h

/-- Witness for claim C4 (amended) on a concrete run. -/
theorem claim_C4_break_current_duration_witness :
    (buildScheduleLoop [9, 10, 11, 14, 15, 16] [("A", 30), ("B", 90)] 540)[0]?
        = some ⟨"A", 540, 30⟩ ∧
    (buildScheduleLoop [9, 10, 11, 14, 15, 16] [("A", 30), ("B", 90)] 540)[1]?
        = some ⟨"B", 585, 90⟩ ∧
    (⟨"B", 585, 90⟩ : Placement).start_time =
      findOptimalStart
          ((⟨"A", 540, 30⟩ : Placement).start_time + (⟨"A", 540, 30⟩ : Placement).duration)
          [9, 10, 11, 14, 15, 16]
          ((buildScheduleLoop [9, 10, 11, 14, 15, 16] [("A", 30), ("B", 90)] 540).take 1)
        + calculateBreak (⟨"B", 585, 90⟩ : Placement).duration :=
  ⟨by decide, by decide,
    claim_C4_break_current_duration [9, 10, 11, 14, 15, 16] [("A", 30), ("B", 90)] 540 0
      ⟨"A", 540, 30⟩ ⟨"B", 585, 90⟩ (by decide) (by decide)⟩

/-- Claim C5 as stated is false: a 150-minute task followed by a
60-minute task leaves a 10-minute gap (the break of the CURRENT task's
duration), which is smaller than the predecessor's 20-minute break
duration. -/
theorem claim_C5_predecessor_gap_counterexample :
    buildScheduleLoop [9, 10, 11, 14, 15, 16] [("A", 150), ("B", 60)] 540 =
      [⟨"A", 540, 150⟩, ⟨"B", 700, 60⟩] ∧
    ¬ (540 + 150 + calculateBreak 150 ≤ 700) := by
  constructor
  · decide
  · decide

/-- Claim C5 (amended): every run of the placement loop is ordered — each
task after the first starts at least `calculateBreak` of its OWN duration
(hence at least 5 minutes, a nonzero gap) after its predecessor's end,
and no two placed `[start, start+duration)` intervals overlap. -/
theorem claim_C5_no_overlap_and_own_break_gap (ph : List Nat)
    (tasks : List (String × Nat)) (now : Nat) :
    List.Chain' gapOk (buildScheduleLoop ph tasks now) ∧
    List.Pairwise placedBefore (buildScheduleLoop ph tasks now) := by
  have hc := buildScheduleLoop_chain ph tasks now
  refine ⟨hc, ?_⟩
  have hlt : List.Chain' placedBefore (buildScheduleLoop ph tasks now) := by
    refine List.Chain'.imp ?_ hc
    intro a b hab
    have h5 := five_le_calculateBreak b.duration
    unfold gapOk at hab
    unfold placedBefore
    omega
  haveI : IsTrans Placement placedBefore := by
    constructor
    intro a b c hab hbc
    unfold placedBefore at *
    omega
  exact List.chain'_iff_pairwise.mp hlt

/-
==================  weighted-mean lemmas (claim C7)  ==================
-/

/-- A left fold of `min` is bounded by its initial value. -/
theorem foldl_min_le_init (l : List ℚ) : ∀ b : ℚ, l.foldl min b ≤ b := by
  induction l with
  | nil => intro b; simp
  | cons a l ih =>
    intro b
    simp only [List.foldl_cons]
    exact le_trans (ih (min b a)) (min_le_left _ _)

/-- A left fold of `min` is bounded by every list element. -/
theorem foldl_min_le_mem (l : List ℚ) : ∀ (b x : ℚ), x ∈ l → l.foldl min b ≤ x := by
  induction l with
  | nil => intro b x hx; simp at hx
  | cons a l ih =>
    intro b x hx
    simp only [List.foldl_cons]
    rcases List.mem_cons.mp hx with h | h
    · subst h
      exact le_trans (foldl_min_le_init l (min b x)) (min_le_right _ _)
    · exact ih _ x h

/-- A left fold of `max` dominates its initial value. -/
theorem le_foldl_max_init (l : List ℚ) : ∀ b : ℚ, b ≤ l.foldl max b := by
  induction l with
  | nil => intro b; simp
  | cons a l ih =>
    intro b
    simp only [List.foldl_cons]
    exact le_trans (le_max_left _ _) (ih (max b a))

/-- A left fold of `max` dominates every list element. -/
theorem mem_le_foldl_max (l : List ℚ) : ∀ (b x : ℚ), x ∈ l → x ≤ l.foldl max b := by
  induction l with
  | nil => intro b x hx; simp at hx
  | cons a l ih =>
    intro b x hx
    simp only [List.foldl_cons]
    rcases List.mem_cons.mp hx with h | h
    · subst h
      exact le_trans (le_max_right _ _) (le_foldl_max_init l (max b x))
    · exact ih _ x h

/-- A uniform lower bound on the average durations bounds the weighted
sum from below by `lo * total_weight`. -/
theorem mul_total_le_weighted_sum (lo : ℚ) :
    ∀ ts : List SimilarTask, (∀ x ∈ ts, lo ≤ x.avg_duration) →
      lo * (total_weight ts : ℚ) ≤ weighted_sum ts := by
  intro ts
  induction ts with
  | nil => intro _; simp [total_weight, weighted_sum]
  | cons t l ih =>
    intro h
    have h1 : lo ≤ t.avg_duration := h t (List.mem_cons_self t l)
    have h2 := ih (fun y hy => h y (List.mem_cons_of_mem _ hy))
    simp only [total_weight, weighted_sum, List.map_cons, List.sum_cons] at h2 ⊢
    push_cast at h2 ⊢
    have h3 : lo * (t.completion_count : ℚ) ≤ t.avg_duration * (t.completion_count : ℚ) :=
      mul_le_mul_of_nonneg_right h1 (by positivity)
    nlinarith [h2, h3]

/-- A uniform upper bound on the average durations bounds the weighted
sum from above by `hi * total_weight`. -/
theorem weighted_sum_le_mul_total (hi : ℚ) :
    ∀ ts : List SimilarTask, (∀ x ∈ ts, x.avg_duration ≤ hi) →
      weighted_sum ts ≤ hi * (total_weight ts : ℚ) := by
  intro ts
  induction ts with
  | nil => intro _; simp [total_weight, weighted_sum]
  | cons t l ih =>
    intro h
    have h1 : t.avg_duration ≤ hi := h t (List.mem_cons_self t l)
    have h2 := ih (fun y hy => h y (List.mem_cons_of_mem _ hy))
    simp only [total_weight, weighted_sum, List.map_cons, List.sum_cons] at h2 ⊢
    push_cast at h2 ⊢
    have h3 : t.avg_duration * (t.completion_count : ℚ) ≤ hi * (t.completion_count : ℚ) :=
      mul_le_mul_of_nonneg_right h1 (by positivity)
    nlinarith [h2, h3]

/-- Claim C7: for every non-empty similar-task list with positive
completion counts, the code's completion-count-weighted average duration
lies between the minimum and the maximum of the individual
`avg_duration` values. -/
theorem claim_C7_weighted_average_bounds (t : SimilarTask) (ts : List SimilarTask)
    (hw : ∀ x ∈ t :: ts, 0 < x.completion_count) :
    min_avg t ts ≤ weighted_avg (t :: ts) ∧ weighted_avg (t :: ts) ≤ max_avg t ts := by
  have hwn : 0 < total_weight (t :: ts) := by
    have ht := hw t (List.mem_cons_self t ts)
    simp only [total_weight, List.map_cons, List.sum_cons]
    omega
  have hpos : (0 : ℚ) < (total_weight (t :: ts) : ℚ) := by exact_mod_cast hwn
  have hlo : ∀ x ∈ t :: ts, min_avg t ts ≤ x.avg_duration := by
    intro x hx
    rcases List.mem_cons.mp hx with h | h
    · subst h
      exact foldl_min_le_init _ _
    · exact foldl_min_le_mem _ _ _ (List.mem_map_of_mem _ h)
  have hhi : ∀ x ∈ t :: ts, x.avg_duration ≤ max_avg t ts := by
    intro x hx
    rcases List.mem_cons.mp hx with h | h
    · subst h
      exact le_foldl_max_init _ _
    · exact mem_le_foldl_max _ _ _ (List.mem_map_of_mem _ h)
  have hL := mul_total_le_weighted_sum (min_avg t ts) (t :: ts) hlo
  have hU := weighted_sum_le_mul_total (max_avg t ts) (t :: ts) hhi
  unfold weighted_avg
  rw [if_pos hwn]
  constructor
  · rw [le_div_iff₀ hpos]
    exact hL
  · rw [div_le_iff₀ hpos]
    exact hU

/-- Witness for claim C7 on a concrete two-element list. -/
theorem claim_C7_weighted_average_bounds_witness :
    (∀ x ∈ [(⟨30, 2⟩ : SimilarTask), ⟨60, 1⟩], 0 < x.completion_count) ∧
    (min_avg ⟨30, 2⟩ [⟨60, 1⟩] ≤ weighted_avg [⟨30, 2⟩, ⟨60, 1⟩] ∧
      weighted_avg [⟨30, 2⟩, ⟨60, 1⟩] ≤ max_avg ⟨30, 2⟩ [⟨60, 1⟩]) :=
  ⟨by decide, claim_C7_weighted_average_bounds ⟨30, 2⟩ [⟨60, 1⟩] (by decide)⟩

/-
==================  rounding bounds (claim C9)  ==================
-/

/-- Rounding half-to-even preserves nonnegativity. -/
theorem round_half_even_nonneg (x : ℚ) (hx : 0 ≤ x) : 0 ≤ round_half_even x := by
  unfold round_half_even
  have hf : 0 ≤ ⌊x⌋ := Int.floor_nonneg.mpr hx
  split_ifs <;> omega

/-- Rounding half-to-even never exceeds an integer upper bound. -/
theorem round_half_even_le (x : ℚ) (n : ℤ) (h : x ≤ (n : ℚ)) : round_half_even x ≤ n := by
  have hf : ⌊x⌋ ≤ n := by
    have h2 := Int.floor_le_floor h
    rwa [Int.floor_intCast] at h2
  unfold round_half_even
  split_ifs with h1 h2 h3
  · exact hf
  · by_contra hc
    push_neg at hc
    have hfeq : ⌊x⌋ = n := by omega
    have hcast : ((⌊x⌋ : ℤ) : ℚ) = (n : ℚ) := by exact_mod_cast hfeq
    rw [hcast] at h2
    linarith [Int.floor_le x]
  · exact hf
  · by_contra hc
    push_neg at hc
    have hfeq : ⌊x⌋ = n := by omega
    have hcast : ((⌊x⌋ : ℤ) : ℚ) = (n : ℚ) := by exact_mod_cast hfeq
    rw [hcast] at h1
    have h1' := not_lt.mp h1
    linarith

/-- `round(x, 1)` of a nonnegative value is nonnegative. -/
theorem py_round_one_nonneg (x : ℚ) (hx : 0 ≤ x) : 0 ≤ py_round 1 x := by
  unfold py_round
  have h1 : (0 : ℤ) ≤ round_half_even (x * 10 ^ 1) := round_half_even_nonneg _ (by positivity)
  have h2 : (0 : ℚ) ≤ ((round_half_even (x * 10 ^ 1) : ℤ) : ℚ) := by exact_mod_cast h1
  positivity

/-- `round(x, 1)` of a value at most 100 is at most 100. -/
theorem py_round_one_le_hundred (x : ℚ) (hx : x ≤ 100) : py_round 1 x ≤ 100 := by
  unfold py_round
  have h1 : round_half_even (x * 10 ^ 1) ≤ (1000 : ℤ) := by
    apply round_half_even_le
    push_cast
    linarith
  rw [div_le_iff₀ (by norm_num : (0 : ℚ) < 10 ^ 1)]
  calc ((round_half_even (x * 10 ^ 1) : ℤ) : ℚ) ≤ 1000 := by exact_mod_cast h1
    _ = 100 * 10 ^ 1 := by norm_num

/-- Claim C9 as stated is false: with 1 completed task out of 3 the
insights completion rate is the rounded 33.3, not the exact
`completed / total * 100 = 100/3`. -/
theorem claim_C9_completion_rate_counterexample :
    insights_completion_rate [⟨"completed"⟩, ⟨"pending"⟩, ⟨"pending"⟩] = 333/10 ∧
    insights_completion_rate [⟨"completed"⟩, ⟨"pending"⟩, ⟨"pending"⟩] ≠
      (completed_count [⟨"completed"⟩, ⟨"pending"⟩, ⟨"pending"⟩] : ℚ) /
        (([⟨"completed"⟩, ⟨"pending"⟩, ⟨"pending"⟩] : List TaskRow).length : ℚ) * 100 := by
  have hc : completed_count [⟨"completed"⟩, ⟨"pending"⟩, ⟨"pending"⟩] = 1 := rfl
  have hlen : ([⟨"completed"⟩, ⟨"pending"⟩, ⟨"pending"⟩] : List TaskRow).length = 3 := rfl
  have h1 : insights_completion_rate [⟨"completed"⟩, ⟨"pending"⟩, ⟨"pending"⟩] = 333/10 := by
    unfold insights_completion_rate
    rw [if_pos (by decide), hc, hlen]
    norm_num [py_round, round_half_even]
  refine ⟨h1, ?_⟩
  rw [h1, hc, hlen]
  norm_num

/-- Claim C9 (amended): the insights completion rate is
`round(completed / total * 100, 1)` — equal to the exact ratio only up
to rounding — always lies in [0, 100], and is 0 when the user has no
tasks (no division by zero); `get_task_completion_rate` returns the
unrounded `min(100, completed / total * 100)` with the same bounds. -/
theorem claim_C9_completion_rate_amended (tasks : List TaskRow) :
    0 ≤ insights_completion_rate tasks ∧ insights_completion_rate tasks ≤ 100 ∧
    (tasks.length = 0 → insights_completion_rate tasks = 0) ∧
    0 ≤ get_task_completion_rate tasks ∧ get_task_completion_rate tasks ≤ 100 ∧
    (tasks.length = 0 → get_task_completion_rate tasks = 0) ∧
    (0 < tasks.length → insights_completion_rate tasks =
      py_round 1 ((completed_count tasks : ℚ) / (tasks.length : ℚ) * 100)) := by
  have hcle : completed_count tasks ≤ tasks.length := List.length_filter_le _ _
  by_cases hz : 0 < tasks.length
  · have hlenpos : (0 : ℚ) < (tasks.length : ℚ) := by exact_mod_cast hz
    have hv0 : (0 : ℚ) ≤ (completed_count tasks : ℚ) / (tasks.length : ℚ) * 100 := by positivity
    have hv100 : (completed_count tasks : ℚ) / (tasks.length : ℚ) * 100 ≤ 100 := by
      have hdiv : (completed_count tasks : ℚ) / (tasks.length : ℚ) ≤ 1 := by
        rw [div_le_one hlenpos]
        exact_mod_cast hcle
      linarith
    refine ⟨?_, ?_, ?_, ?_, ?_, ?_, ?_⟩
    · unfold insights_completion_rate
      rw [if_pos hz]
      exact py_round_one_nonneg _ hv0
    · unfold insights_completion_rate
      rw [if_pos hz]
      exact py_round_one_le_hundred _ hv100
    · intro h0
      exact absurd h0 (by omega)
    · unfold get_task_completion_rate
      rw [if_pos hz]
      exact le_min (by norm_num) hv0
    · unfold get_task_completion_rate
      rw [if_pos hz]
      exact min_le_left _ _
    · intro h0
      exact absurd h0 (by omega)
    · intro _
      unfold insights_completion_rate
      rw [if_pos hz]
  · refine ⟨?_, ?_, fun _ => ?_, ?_, ?_, fun _ => ?_, fun hlt => absurd hlt hz⟩ <;>
      simp [insights_completion_rate, get_task_completion_rate, hz]

/-- Witness for claim C9 (amended) on a single completed task. -/
theorem claim_C9_completion_rate_amended_witness :
    (0 : Nat) < ([⟨"completed"⟩] : List TaskRow).length ∧
    insights_completion_rate [⟨"completed"⟩] =
      py_round 1 ((completed_count [⟨"completed"⟩] : ℚ) /
        (([⟨"completed"⟩] : List TaskRow).length : ℚ) * 100) :=
  ⟨by decide, (claim_C9_completion_rate_amended [⟨"completed"⟩]).2.2.2.2.2.2 (by decide)⟩

/-
==================  claim C8  ==================
-/

/-- `predict_task_duration` with no category average and a healthy
database, fully reduced. -/
theorem predict_task_duration_no_history (cid : Nat) (lk : Nat → Option String) :
    predict_task_duration false (some cid) lk none =
      { duration := py_round 1 ((default_durations
            (py_lower (if cid = 0 then "other" else (lk cid).getD "other")) : ℚ) / 60),
        confidence := 70, method := "Historical Average" } := rfl

/-- Claim C8 as stated is false: the only path that reports confidence
`low` (`get_smart_scheduling_suggestion` with zero matches and no
category average) estimates 0 minutes, not the fixed 45-minute testing
default. -/
theorem claim_C8_default_duration_counterexample :
    (get_smart_scheduling_suggestion [] none).estimated_duration = 0 ∧
    (get_smart_scheduling_suggestion [] none).confidence_level = "low" ∧
    ((0 : ℚ) ≠ 45) := by
  have h0 : py_round 2 (calculate_average_time none) = 0 := by
    norm_num [calculate_average_time, py_round, round_half_even]
  exact ⟨h0, rfl, by norm_num⟩

/-- Claim C8 (amended): with zero similar matches and no category
average, `get_smart_scheduling_suggestion` returns estimated duration 0
with confidence `low` (no per-category default there); the fixed default
table lives in `predict_task_duration`, which in that situation returns
the table value converted to hours with one-decimal rounding (testing:
45 min → 0.8 h) under method `Historical Average` with numeric
confidence 70.0 rather than the label `low`, and treats an unknown
category id as `other` (60 min → 1.0 h). -/
theorem claim_C8_default_duration_amended (lk : Nat → Option String)
    (h3 : lk 3 = some "testing") (h99 : lk 99 = none) :
    (get_smart_scheduling_suggestion [] none).estimated_duration = 0 ∧
    (get_smart_scheduling_suggestion [] none).confidence_level = "low" ∧
    (predict_task_duration false (some 3) lk none).duration = 4/5 ∧
    (predict_task_duration false (some 3) lk none).confidence = 70 ∧
    (predict_task_duration false (some 3) lk none).method = "Historical Average" ∧
    (predict_task_duration false (some 99) lk none).duration = 1 := by
  have h0 : py_round 2 (calculate_average_time none) = 0 := by
    norm_num [calculate_average_time, py_round, round_half_even]
  refine ⟨h0, rfl, ?_, ?_, ?_, ?_⟩
  · rw [predict_task_duration_no_history 3 lk, h3]
    have hd : default_durations
        (py_lower (if (3 : Nat) = 0 then "other" else (some "testing").getD "other")) = 45 := rfl
    rw [hd]
    norm_num [py_round, round_half_even]
  · rw [predict_task_duration_no_history 3 lk]
  · rw [predict_task_duration_no_history 3 lk]
  · rw [predict_task_duration_no_history 99 lk, h99]
    have hd : default_durations
        (py_lower (if (99 : Nat) = 0 then "other" else (none : Option String).getD "other"))
        = 60 := rfl
    rw [hd]
    norm_num [py_round, round_half_even]

/-- Witness for claim C8 (amended) with the concrete category table. -/
theorem claim_C8_default_duration_amended_witness :
    testing_lookup 3 = some "testing" ∧ testing_lookup 99 = none ∧
    (predict_task_duration false (some 3) testing_lookup none).duration = 4/5 :=
  ⟨rfl, rfl, (claim_C8_default_duration_amended testing_lookup rfl rfl).2.2.1⟩
